import Mathlib

/-!
Verification of the UBX/NMEA GNSS receiver library (`ubx_receiver.py`).

The development shallowly embeds the pure core of the library:
the Fletcher checksum, the NMEA XOR checksum and sentence decoder,
the UBX frame decoder, the byte-stream parser state machine, and the
outbound message builders.  Bytes are modelled as `Nat` (each value `< 256`
where the Python code produces real bytes), byte strings as `List Nat`,
text as `List Char`, and Python exceptions as `Except` error values.
-/

/-- Little-endian value of a byte list, `int.from_bytes(bs, 'little')`. -/
def leBytes : List Nat → Nat
  | [] => 0
  | b :: rest => b + 256 * leBytes rest

/-- Accumulator loop of `fletcher_checksum`: `CK_A += msg[i]; CK_B += CK_A`
over the remaining bytes, without any masking (Python ints are unbounded
inside the loop; masking happens once at the end). -/
def fletcherAcc : List Nat → Nat → Nat → Nat × Nat
  | [], a, b => (a, b)
  | x :: rest, a, b => fletcherAcc rest (a + x) (b + (a + x))

/-- `fletcher_checksum(msg)` from the source: iterates over `range(2, len(msg))`
(so the first two bytes of the argument are skipped), accumulates `CK_A`,
`CK_B`, masks both with `0xFF` at the end and returns the two result bytes. -/
def fletcher_checksum (msg : List Nat) : List Nat :=
  [(fletcherAcc (msg.drop 2) 0 0).1 % 256, (fletcherAcc (msg.drop 2) 0 0).2 % 256]

/-- The checksum recurrence exactly as the specification words it: two 8-bit
accumulators, `A = (A + b) mod 256; B = (B + A) mod 256` for each byte `b`
of the input in order, starting from `A = B = 0`.  Used only to compare the
source function against the specification's description. -/
def fletcherSpecStep (ab : Nat × Nat) (x : Nat) : Nat × Nat :=
  ((ab.1 + x) % 256, (ab.2 + (ab.1 + x) % 256) % 256)

/-- Specification-worded Fletcher checksum over every byte of the input. -/
def fletcherSpec (s : List Nat) : List Nat :=
  [(s.foldl fletcherSpecStep (0, 0)).1, (s.foldl fletcherSpecStep (0, 0)).2]

/-- `safeget(ubx_msg_dict, class, "classname")`: class-byte to class-name
lookup in the literal table of the source. -/
def ubx_classname : Nat → Option String
  | 0x01 => some "NAV"
  | 0x02 => some "RXM"
  | 0x04 => some "INF"
  | 0x05 => some "ACK"
  | 0x06 => some "CFG"
  | 0x09 => some "UPD"
  | 0x0A => some "MON"
  | 0x0D => some "TIM"
  | 0x13 => some "MGA"
  | 0x21 => some "LOG"
  | 0x27 => some "SEC"
  | _ => none

/-- `safeget(ubx_msg_dict, class, id)`: nested class/id lookup; `none` when
either level is missing (Python `safeget` returns `None` on any `KeyError`). -/
def ubx_idname : Nat → Nat → Option String
  | 0x02, 0x14 => some "MEASX"
  | 0x02, 0x41 => some "PMREQ"
  | 0x02, 0x15 => some "RAWX"
  | 0x02, 0x59 => some "RLM"
  | 0x02, 0x13 => some "SFRBX"
  | 0x05, 0x00 => some "NAK"
  | 0x05, 0x01 => some "ACK"
  | _, _ => none

/-- `ubx_config_dict`: symbolic configuration-key names to 4-byte key ids. -/
def ubx_config_dict : String → Option (List Nat)
  | "GLL_UART1" => some [0xCA, 0x00, 0x91, 0x20]
  | "GSV_UART1" => some [0xC5, 0x00, 0x91, 0x20]
  | "GGA_UART1" => some [0xBB, 0x00, 0x91, 0x20]
  | "GSA_UART1" => some [0xC0, 0x00, 0x91, 0x20]
  | "GST_UART1" => some [0xD4, 0x00, 0x91, 0x20]
  | "RMC_UART1" => some [0xAC, 0x00, 0x91, 0x20]
  | "ZDA_UART1" => some [0xD9, 0x00, 0x91, 0x20]
  | "VTG_UART1" => some [0xB1, 0x00, 0x91, 0x20]
  | "RAWX_UART1" => some [0xA5, 0x02, 0x91, 0x20]
  | "SFRBX_UART1" => some [0x32, 0x02, 0x91, 0x20]
  | "NAVSPG-DYNMODEL" => some [0x21, 0x00, 0x11, 0x20]
  | _ => none

/-- The `UBX_message` value as constructed by a successful `__init__`.
The Python class also declares a `checksum` attribute, but `__init__` never
assigns it, so it is omitted here. -/
structure UBXMessage where
  correct : Bool
  raw_data : List Nat
  ubx_class : Nat
  ubx_class_name : String
  ubx_id : Nat
  ubx_id_name : String
  length : Nat
  payload : List Nat
deriving DecidableEq, Repr

/-- The two `ValueError`s `UBX_message.__init__` can raise, with the values
interpolated into the Python error messages. -/
inductive UBXErr where
  | wrongChecksum (computed declared : List Nat)
  | payloadLength (actual expected : Nat)
deriving DecidableEq, Repr

/-- Body of `UBX_message.__init__` after the sync-strip step: `data` is the
(possibly stripped) buffer, `raw_data = sync + data`; the checksum is computed
over `raw_data[:-2]` and compared to `data[-2:]`; on match the class, id,
little-endian length and `payload = data[4:-2]` are extracted and the payload
length is validated. -/
def UBX_decode_body (data : List Nat) : Except UBXErr UBXMessage :=
  if fletcher_checksum (([0xB5, 0x62] ++ data).take (([0xB5, 0x62] ++ data).length - 2))
      = data.drop (data.length - 2) then
    if ((data.take (data.length - 2)).drop 4).length = leBytes ((data.drop 2).take 2) then
      Except.ok
        { correct := true
          raw_data := [0xB5, 0x62] ++ data
          ubx_class := data.getD 0 0
          ubx_class_name := (ubx_classname (data.getD 0 0)).getD "unknown"
          ubx_id := data.getD 1 0
          ubx_id_name := (ubx_idname (data.getD 0 0) (data.getD 1 0)).getD "unknown"
          length := leBytes ((data.drop 2).take 2)
          payload := (data.take (data.length - 2)).drop 4 }
    else
      Except.error (UBXErr.payloadLength ((data.take (data.length - 2)).drop 4).length
        (leBytes ((data.drop 2).take 2)))
  else
    Except.error (UBXErr.wrongChecksum
      (fletcher_checksum (([0xB5, 0x62] ++ data).take (([0xB5, 0x62] ++ data).length - 2)))
      (data.drop (data.length - 2)))

/-- `UBX_message.__init__(data)`: strips a leading `0xB5 0x62` sync marker if
present, then validates and decodes (raising = `Except.error`). -/
def UBX_message (data0 : List Nat) : Except UBXErr UBXMessage :=
  if data0.take 2 = [0xB5, 0x62] then UBX_decode_body (data0.drop 2)
  else UBX_decode_body data0

/-- Characters stripped by Python's `int(s, 16)` before parsing.  The model
covers the ASCII whitespace range plus `\x85` and `\xa0`; the exotic
Unicode space code points above `U+00A0` that CPython also strips are not
modelled (no claim touches them). -/
def isPyWs (c : Char) : Bool :=
  decide (c.toNat = 0x20 ∨ c.toNat = 0x09 ∨ c.toNat = 0x0A ∨ c.toNat = 0x0B ∨
    c.toNat = 0x0C ∨ c.toNat = 0x0D ∨ (0x1C ≤ c.toNat ∧ c.toNat ≤ 0x1F) ∨
    c.toNat = 0x85 ∨ c.toNat = 0xA0)

/-- Strip leading and trailing whitespace, as `int(s, 16)` does. -/
def stripWs (l : List Char) : List Char :=
  ((l.dropWhile isPyWs).reverse.dropWhile isPyWs).reverse

/-- Value of an ASCII hexadecimal digit (`0-9`, `a-f`, `A-F`). -/
def hexVal? (c : Char) : Option Nat :=
  if 48 ≤ c.toNat ∧ c.toNat ≤ 57 then some (c.toNat - 48)
  else if 97 ≤ c.toNat ∧ c.toNat ≤ 102 then some (c.toNat - 97 + 10)
  else if 65 ≤ c.toNat ∧ c.toNat ≤ 70 then some (c.toNat - 65 + 10)
  else none

/-- Hex digit run after the first digit: single underscores are allowed
strictly between digits, as in CPython's integer literal grammar. -/
def hexDigitsRest (acc : Nat) : List Char → Option Nat
  | [] => some acc
  | c :: rest =>
    if c = '_' then
      match rest with
      | [] => none
      | d :: rest2 =>
        match hexVal? d with
        | some v => hexDigitsRest (16 * acc + v) rest2
        | none => none
    else
      match hexVal? c with
      | some v => hexDigitsRest (16 * acc + v) rest
      | none => none

/-- A nonempty underscore-separated hex digit run. -/
def hexFirst : List Char → Option Nat
  | [] => none
  | c :: rest =>
    match hexVal? c with
    | some v => hexDigitsRest v rest
    | none => none

/-- Drop the single underscore CPython allows right after a `0x` prefix. -/
def dropPrefixUnderscore : List Char → List Char
  | [] => []
  | c :: r => if c = '_' then r else c :: r

/-- Magnitude part of `int(s, 16)`: an optional `0x`/`0X` prefix followed by
hex digits. -/
def pyHexMag (s : List Char) : Option Nat :=
  match s with
  | c0 :: c1 :: r =>
    if c0 = '0' ∧ (c1 = 'x' ∨ c1 = 'X') then hexFirst (dropPrefixUnderscore r)
    else hexFirst s
  | _ => hexFirst s

/-- Python's `int(s, 16)` (`none` = `ValueError`): strip whitespace, optional
sign, optional `0x` prefix, nonempty underscore-separated hex digits.
(Non-ASCII Unicode decimal digits, which CPython also accepts, are not
modelled; no claim touches them.) -/
def pyIntHex (s : List Char) : Option Int :=
  match stripWs s with
  | [] => none
  | c :: r =>
    if c = '+' then (pyHexMag r).map (fun n => (n : Int))
    else if c = '-' then (pyHexMag r).map (fun n => -(n : Int))
    else (pyHexMag (c :: r)).map (fun n => (n : Int))

/-- XOR loop of `NMEA_message.__init__`: `checksum ^= ord(s)` over the part
of the sentence before the `*`. -/
def nmeaXor (l : List Char) : Nat :=
  l.foldl (fun a c => Nat.xor a c.toNat) 0

/-- `nmea_data, chk = data.split('*')`: succeeds with the parts before and
after the unique `*`; any other number of `*` occurrences makes the unpacking
raise a `ValueError` (`none`). -/
def splitStar : List Char → Option (List Char × List Char)
  | [] => none
  | c :: rest =>
    if c = '*' then (if '*' ∈ rest then none else some ([], rest))
    else (splitStar rest).map (fun p => (c :: p.1, p.2))

/-- The `NMEA_message` value as constructed by a successful `__init__`.
Note that the Python code never sets `correct = True` for NMEA messages:
the class-level `False` is kept. -/
structure NMEAMessage where
  correct : Bool
  raw_data : List Char
  talker_id : List Char
  msg_type : List Char
  data : List Char
  checksum : List Char
deriving DecidableEq, Repr

/-- The `ValueError`s `NMEA_message.__init__` can raise: tuple-unpacking of
`split('*')`, `int(chk, 16)` parse failure, and the explicit checksum
mismatch (with the two compared values). -/
inductive NMEAErr where
  | unpack
  | intParse
  | wrongChecksum (computed : Nat) (declared : Int)
deriving DecidableEq, Repr

/-- `NMEA_message.__init__(data)` on already-decoded text: slice the header
fields, split on `*`, XOR the part before the `*`, parse `chk[:-2]` as hex
and compare numerically (the source compares `hex(...)` strings, which is
equivalent to integer equality since `hex` is injective). -/
def NMEA_message (data : List Char) : Except NMEAErr NMEAMessage :=
  match splitStar data with
  | none => Except.error NMEAErr.unpack
  | some (nmea_data, chk) =>
    match pyIntHex (chk.take (chk.length - 2)) with
    | none => Except.error NMEAErr.intParse
    | some parsed =>
      if (nmeaXor nmea_data : Int) = parsed then
        Except.ok
          { correct := false
            raw_data := data
            talker_id := data.take 2
            msg_type := (data.drop 2).take 3
            data := (data.take (data.length - 5)).drop 6
            checksum := chk.take (chk.length - 2) }
      else Except.error (NMEAErr.wrongChecksum (nmeaXor nmea_data) parsed)

/-- UTF-8 decoding of a byte list (`bytes.decode()`); `none` models
`UnicodeDecodeError`.  Standard RFC 3629 validation: continuation ranges,
no overlong encodings, no surrogates, max `U+10FFFF`. -/
def utf8Decode : List Nat → Option (List Char)
  | [] => some []
  | b :: rest =>
    if b < 0x80 then (utf8Decode rest).map (fun cs => Char.ofNat b :: cs)
    else if 0xC2 ≤ b ∧ b ≤ 0xDF then
      match rest with
      | b2 :: r2 =>
        if 0x80 ≤ b2 ∧ b2 ≤ 0xBF then
          (utf8Decode r2).map (fun cs => Char.ofNat ((b - 0xC0) * 64 + (b2 - 0x80)) :: cs)
        else none
      | [] => none
    else if 0xE0 ≤ b ∧ b ≤ 0xEF then
      match rest with
      | b2 :: b3 :: r3 =>
        if (if b = 0xE0 then 0xA0 else 0x80) ≤ b2 ∧ b2 ≤ (if b = 0xED then 0x9F else 0xBF) ∧
            0x80 ≤ b3 ∧ b3 ≤ 0xBF then
          (utf8Decode r3).map
            (fun cs => Char.ofNat ((b - 0xE0) * 4096 + (b2 - 0x80) * 64 + (b3 - 0x80)) :: cs)
        else none
      | _ => none
    else if 0xF0 ≤ b ∧ b ≤ 0xF4 then
      match rest with
      | b2 :: b3 :: b4 :: r4 =>
        if (if b = 0xF0 then 0x90 else 0x80) ≤ b2 ∧ b2 ≤ (if b = 0xF4 then 0x8F else 0xBF) ∧
            0x80 ≤ b3 ∧ b3 ≤ 0xBF ∧ 0x80 ≤ b4 ∧ b4 ≤ 0xBF then
          (utf8Decode r4).map
            (fun cs => Char.ofNat ((b - 0xF0) * 262144 + (b2 - 0x80) * 4096 +
              (b3 - 0x80) * 64 + (b4 - 0x80)) :: cs)
        else none
      | _ => none
    else none

/-- `self.current_parse`: `None`, `"UBX"` or `"NMEA"`. -/
inductive PMode where
  | UBX
  | NMEA
deriving DecidableEq, Repr

/-- The mutable parser state of `UBX_receiver`: `current_parse`,
`parse_data` (list of single bytes) and `last_byte`. -/
structure ParserSt where
  current_parse : Option PMode
  parse_data : List Nat
  last_byte : Option Nat
deriving DecidableEq, Repr

/-- Initial parser state (the class-attribute defaults). -/
def initState : ParserSt := { current_parse := none, parse_data := [], last_byte := none }

/-- A value returned by `UBX_receiver.parse`: a decoded message, or one of
the strings built when a decoder raised `ValueError`. -/
inductive ParseResult where
  | ubx (m : UBXMessage)
  | ubxInvalid (e : UBXErr)
  | nmea (m : NMEAMessage)
  | nmeaInvalid
deriving DecidableEq, Repr

/-- One invocation of `UBX_receiver.parse` with exactly one byte available.
Idle: detect `0xB5 0x62` / `$G` start pairs, record `last_byte`, return
nothing.  Collecting UBX: append; once at least four bytes are buffered and
the buffer length equals the declared little-endian length plus 6, decode
with `UBX_message` (catching `ValueError`), call `reset_data` and return the
result.  Collecting NMEA: append; on a line feed, UTF-8 decode and run
`NMEA_message` (catching `ValueError`), call `reset_data` and return the
result.  `reset_data` clears `parse_data` and `current_parse` but leaves
`last_byte` untouched. -/
def parse_step (st : ParserSt) (b : Nat) : ParserSt × Option ParseResult :=
  match st.current_parse with
  | none =>
    if b = 0x62 ∧ st.last_byte = some 0xB5 then
      ({ current_parse := some PMode.UBX, parse_data := [], last_byte := some b }, none)
    else if b = 0x47 ∧ st.last_byte = some 0x24 then
      ({ current_parse := some PMode.NMEA, parse_data := [0x47], last_byte := some b }, none)
    else
      ({ st with last_byte := some b }, none)
  | some PMode.UBX =>
    if (st.parse_data ++ [b]).length ≥ 4 ∧
        (st.parse_data ++ [b]).length =
          leBytes [(st.parse_data ++ [b]).getD 2 0, (st.parse_data ++ [b]).getD 3 0] + 6 then
      ({ st with current_parse := none, parse_data := [] },
       some (match UBX_message (st.parse_data ++ [b]) with
             | Except.ok m => ParseResult.ubx m
             | Except.error e => ParseResult.ubxInvalid e))
    else
      ({ st with parse_data := st.parse_data ++ [b] }, none)
  | some PMode.NMEA =>
    if b = 0x0A then
      ({ st with current_parse := none, parse_data := [] },
       some (match utf8Decode (st.parse_data ++ [b]) with
             | some cs =>
               match NMEA_message cs with
               | Except.ok m => ParseResult.nmea m
               | Except.error _ => ParseResult.nmeaInvalid
             | none => ParseResult.nmeaInvalid))
    else
      ({ st with parse_data := st.parse_data ++ [b] }, none)

/-- Feed a list of bytes one at a time, collecting every returned message. -/
def runBytes (st : ParserSt) : List Nat → ParserSt × List ParseResult
  | [] => (st, [])
  | b :: rest =>
    ((runBytes (parse_step st b).1 rest).1,
     (parse_step st b).2.toList ++ (runBytes (parse_step st b).1 rest).2)

/-- `UBX_receiver.ubx_msg(c, id, payload)`: builds
`sync + c + id + bytes([len(payload)]) + b'\x00' + payload + checksum`.
`bytes([n])` raises `ValueError` when `n > 255`, hence `none` for payloads
longer than 255 bytes. -/
def ubx_msg (c i : Nat) (payload : List Nat) : Option (List Nat) :=
  if payload.length ≤ 255 then
    some (([0xB5, 0x62, c, i, payload.length, 0x00] ++ payload) ++
      fletcher_checksum ([0xB5, 0x62, c, i, payload.length, 0x00] ++ payload))
  else none

/-- An argument to `UBX_receiver.set_val`: a Python `int`, `str`, or
bytes-like value. -/
inductive SetValArg where
  | int (n : Nat)
  | str (k : String)
  | bytes (bs : List Nat)
deriving DecidableEq, Repr

/-- Failures of `set_val`: the explicit even-arity `ValueError`, the
`ValueError` from `bytes([n])` for an out-of-range int, the `KeyError` from
`ubx_config_dict[arg]`, and the `ValueError` raised inside `ubx_msg` when
the accumulated payload exceeds 255 bytes. -/
inductive SetValErr where
  | oddArgs
  | byteRange (n : Nat)
  | keyError (k : String)
  | lengthOverflow
deriving DecidableEq, Repr

/-- Conversion of one `set_val` argument to bytes, as in the loop body. -/
def convArg : SetValArg → Except SetValErr (List Nat)
  | SetValArg.int n => if n ≤ 255 then Except.ok [n] else Except.error (SetValErr.byteRange n)
  | SetValArg.str k =>
    match ubx_config_dict k with
    | some bs => Except.ok bs
    | none => Except.error (SetValErr.keyError k)
  | SetValArg.bytes bs => Except.ok bs

/-- `UBX_receiver.set_val(*args)`: rejects an odd argument count before
anything else, converts each argument to bytes in order, prepends the fixed
header `b'\x00\x01\x00\x00'`, frames with `ubx_msg` and returns the bytes
written to the serial port (`Except.ok` = the single `port.write`). -/
def set_val (args : List SetValArg) : Except SetValErr (List Nat) :=
  if args.length % 2 ≠ 0 then Except.error SetValErr.oddArgs
  else
    match args.mapM convArg with
    | Except.error e => Except.error e
    | Except.ok parts =>
      match ubx_msg 0x06 0x8A ([0x00, 0x01, 0x00, 0x00] ++ parts.flatten) with
      | some msg => Except.ok msg
      | none => Except.error SetValErr.lengthOverflow

/-- `Except` success discriminator (decode did not raise). -/
def exIsOk {ε α : Type} : Except ε α → Bool
  | Except.ok _ => true
  | Except.error _ => false

/-- The result is the explicit UBX checksum-mismatch `ValueError`. -/
def isCkErr : Except UBXErr UBXMessage → Bool
  | Except.error (UBXErr.wrongChecksum _ _) => true
  | _ => false

/-- The 12-byte UBX frame of the parser-framing test property. -/
def c6seq : List Nat := [0xB5, 0x62, 0x06, 0x04, 0x04, 0x00, 0x00, 0x00, 0x00, 0x00, 0x0E, 0x64]

/-! ## Helper lemmas -/

/-- Masking the Fletcher accumulators once at the end agrees with reducing
modulo 256 at every step. -/
theorem fletcherAcc_mod (l : List Nat) : ∀ a b : Nat,
    ((fletcherAcc l a b).1 % 256, (fletcherAcc l a b).2 % 256) =
      l.foldl fletcherSpecStep (a % 256, b % 256) := by
  induction l with
  | nil => intro a b; rfl
  | cons x rest ih =>
    intro a b
    simp only [fletcherAcc, List.foldl_cons, fletcherSpecStep]
    rw [ih (a + x) (b + (a + x))]
    congr 1
    simp only [Prod.mk.injEq]
    constructor <;> omega

/-- Taking all but the last two elements of `l ++ t` with `t` of length two
yields `l`. -/
theorem take_all_but_two {α : Type} (l t : List α) (h : t.length = 2) :
    (l ++ t).take ((l ++ t).length - 2) = l := by
  have hl : (l ++ t).length - 2 = l.length := by simp [List.length_append, h]
  rw [hl, List.take_left]

/-- Dropping all but the last two elements of `l ++ t` with `t` of length two
yields `t`. -/
theorem drop_all_but_two {α : Type} (l t : List α) (h : t.length = 2) :
    (l ++ t).drop ((l ++ t).length - 2) = t := by
  have hl : (l ++ t).length - 2 = l.length := by simp [List.length_append, h]
  rw [hl, List.drop_left]

/-- On a synced frame whose trailing two bytes do not match the computed
checksum, `UBX_message` raises the checksum `ValueError`. -/
theorem UBX_bad_ck (pre : List Nat) (x y : Nat)
    (h : fletcher_checksum ([0xB5, 0x62] ++ pre) ≠ [x, y]) :
    UBX_message ([0xB5, 0x62] ++ (pre ++ [x, y])) =
      Except.error (UBXErr.wrongChecksum (fletcher_checksum ([0xB5, 0x62] ++ pre)) [x, y]) := by
  have hstrip : ([0xB5, 0x62] ++ (pre ++ [x, y])).take 2 = [0xB5, 0x62] := rfl
  have hdrop : ([0xB5, 0x62] ++ (pre ++ [x, y])).drop 2 = pre ++ [x, y] := rfl
  have htake : (([0xB5, 0x62] ++ (pre ++ [x, y])).take
      (([0xB5, 0x62] ++ (pre ++ [x, y])).length - 2)) = [0xB5, 0x62] ++ pre := by
    rw [← List.append_assoc]
    exact take_all_but_two ([0xB5, 0x62] ++ pre) [x, y] rfl
  have hlast : (pre ++ [x, y]).drop ((pre ++ [x, y]).length - 2) = [x, y] :=
    drop_all_but_two pre [x, y] rfl
  rw [UBX_message, if_pos hstrip, hdrop, UBX_decode_body, htake, hlast, if_neg h]

/-- If a synced frame decodes successfully then its trailing two bytes equal
the checksum computed over everything before them. -/
theorem UBX_ok_ck (pre : List Nat) (x y : Nat)
    (h : exIsOk (UBX_message ([0xB5, 0x62] ++ (pre ++ [x, y]))) = true) :
    fletcher_checksum ([0xB5, 0x62] ++ pre) = [x, y] := by
  by_cases hck : fletcher_checksum ([0xB5, 0x62] ++ pre) = [x, y]
  · exact hck
  · rw [UBX_bad_ck pre x y hck] at h
    simp [exIsOk] at h

/-- `splitStar` on a list with exactly one `*` returns the parts before and
after it. -/
theorem splitStar_append (pre post : List Char) (h1 : '*' ∉ pre) (h2 : '*' ∉ post) :
    splitStar (pre ++ '*' :: post) = some (pre, post) := by
  induction pre with
  | nil =>
    simp [splitStar, h2]
  | cons a pre ih =>
    have ha : ¬(a = '*') := by
      intro e; subst e; exact h1 (List.mem_cons_self _ _)
    have h1' : '*' ∉ pre := fun hm => h1 (List.mem_cons_of_mem a hm)
    simp only [List.cons_append, splitStar, if_neg ha, List.append_eq]
    rw [ih h1']
    rfl

/-- `splitStar` fails exactly when the number of `*` occurrences is not one,
matching the two-variable unpacking of `data.split('*')`. -/
theorem splitStar_none_iff (l : List Char) : splitStar l = none ↔ l.count '*' ≠ 1 := by
  induction l with
  | nil => simp [splitStar]
  | cons a rest ih =>
    by_cases ha : a = '*'
    · subst ha
      simp only [splitStar, if_pos rfl, List.count_cons_self]
      by_cases hm : '*' ∈ rest
      · have hpos : 0 < rest.count '*' := List.count_pos_iff.mpr hm
        simp only [if_pos hm]
        constructor
        · intro _; omega
        · intro _; rfl
      · have hz : rest.count '*' = 0 := List.count_eq_zero.mpr hm
        simp only [if_neg hm, hz]
        constructor
        · intro hc; exact absurd hc (by simp)
        · intro hc; exact absurd rfl hc
    · have ha' : ('*' : Char) ≠ a := Ne.symm ha
      simp only [splitStar, if_neg ha, Option.map_eq_none', List.count_cons_of_ne ha']
      exact ih

/-! ## Claim theorems -/

/-- C1: the claim asks for a successful build/decode round trip for every
payload of length up to 65535, but the builder `ubx_msg` encodes the length
with `bytes([len(payload)])`, which raises `ValueError` as soon as the
payload is longer than 255 bytes; at the failing input (a 256-byte payload)
the builder produces no frame at all. -/
theorem ubx_msg_overflow_at_256 :
    ubx_msg 0x06 0x01 (List.replicate 256 0x00) = none := by
  rw [ubx_msg, if_neg (by rw [List.length_replicate]; omega)]

/-- C2 (amended): `fletcher_checksum` does not apply the Fletcher recurrence
to every byte of its argument; it skips the first two bytes (the sync-marker
positions) and applies the recurrence, with 8-bit reduction, to the rest. -/
theorem fletcher_checksum_skips_two (s : List Nat) :
    fletcher_checksum s = fletcherSpec (s.drop 2) := by
  have h := fletcherAcc_mod (s.drop 2) 0 0
  have h1 := congrArg Prod.fst h
  have h2 := congrArg Prod.snd h
  simp only at h1 h2
  simp only [fletcher_checksum, fletcherSpec, h1, h2]

/-- C2 counterexample: on the input `[6, 4, 1, 0, 255]` the function returns
`[0, 2]` (the recurrence applied to `[1, 0, 255]` only), not the `[10, 48]`
demanded by the claim's recurrence over every byte of the input. -/
theorem fletcher_checksum_not_all_bytes :
    fletcher_checksum [6, 4, 1, 0, 255] ≠ fletcherSpec [6, 4, 1, 0, 255] := by decide

/-- C3 counterexample: the frame `[0xB5, 0x62, 0x00, 0x00, 0x17, 0xFA]` is a
complete sync-less frame (class `0xB5`, id `0x62`, length 0, valid checksum),
but because its first two bytes look like the sync marker the constructor
strips them; without the prepended marker it decodes to a valid message,
with it the same bytes are rejected with a checksum mismatch. -/
theorem UBX_sync_prefix_collision :
    UBX_message [0xB5, 0x62, 0x00, 0x00, 0x17, 0xFA] ≠
      UBX_message ([0xB5, 0x62] ++ [0xB5, 0x62, 0x00, 0x00, 0x17, 0xFA]) := by
  intro h
  exact absurd (congrArg exIsOk h) (by decide)

/-- C3 (amended): for every buffer `f` that does not itself begin with the
sync bytes `0xB5 0x62`, constructing a UBX message from `f` and from the
sync marker followed by `f` produce the same result. -/
theorem UBX_sync_optional (f : List Nat) (h : f.take 2 ≠ [0xB5, 0x62]) :
    UBX_message f = UBX_message ([0xB5, 0x62] ++ f) := by
  have hc : List.take 2 ([0xB5, 0x62] ++ f) = [0xB5, 0x62] := List.take_left' rfl
  rw [UBX_message, UBX_message, if_neg h, if_pos hc]
  rfl

/-- Witness for the amended C3 at the concrete frame `[1, 2, 3]`. -/
theorem UBX_sync_optional_witness :
    UBX_message [1, 2, 3] = UBX_message ([0xB5, 0x62] ++ [1, 2, 3]) :=
  UBX_sync_optional [1, 2, 3] (by decide)

/-- C6: feeding the twelve bytes `B5 62 06 04 04 00 00 00 00 00 0E 64` one at
a time from the idle state yields exactly one completed UBX message, with
class `0x06` (`CFG`), id `0x04`, length 4 and a four-byte zero payload, and
yields nothing on every proper prefix of the sequence. -/
theorem parser_framing_ubx :
    (runBytes initState c6seq).2 =
      [ParseResult.ubx
        { correct := true
          raw_data := [0xB5, 0x62, 0x06, 0x04, 0x04, 0x00, 0x00, 0x00, 0x00, 0x00, 0x0E, 0x64]
          ubx_class := 0x06
          ubx_class_name := "CFG"
          ubx_id := 0x04
          ubx_id_name := "unknown"
          length := 4
          payload := [0x00, 0x00, 0x00, 0x00] }] ∧
    ((List.range 12).all fun k => ((runBytes initState (c6seq.take k)).2.isEmpty)) = true := by
  exact ⟨by decide, by decide⟩

/-- C8: `set_val` called with an odd number of arguments raises the
even-arity `ValueError` before converting anything and before the single
`port.write`, so no bytes reach the serial port. -/
theorem set_val_odd_args (args : List SetValArg) (h : args.length % 2 = 1) :
    set_val args = Except.error SetValErr.oddArgs := by
  rw [set_val, if_pos (by omega)]

/-- Witness for C8 at a concrete one-element argument list. -/
theorem set_val_odd_args_witness :
    set_val [SetValArg.bytes [0x00]] = Except.error SetValErr.oddArgs :=
  set_val_odd_args [SetValArg.bytes [0x00]] rfl

/-- A character with a hex value lies in one of the three ASCII digit/letter
ranges. -/
theorem hexVal?_ranges (c : Char) (v : Nat) (h : hexVal? c = some v) :
    (48 ≤ c.toNat ∧ c.toNat ≤ 57) ∨ (97 ≤ c.toNat ∧ c.toNat ≤ 102) ∨
      (65 ≤ c.toNat ∧ c.toNat ≤ 70) := by
  by_cases h1 : 48 ≤ c.toNat ∧ c.toNat ≤ 57
  · exact Or.inl h1
  by_cases h2 : 97 ≤ c.toNat ∧ c.toNat ≤ 102
  · exact Or.inr (Or.inl h2)
  by_cases h3 : 65 ≤ c.toNat ∧ c.toNat ≤ 70
  · exact Or.inr (Or.inr h3)
  · simp [hexVal?, h1, h2, h3] at h

/-- A hex digit is distinct from any character with no hex value. -/
theorem hexVal?_ne (c : Char) (v : Nat) (h : hexVal? c = some v) (d : Char)
    (hd : hexVal? d = none) : c ≠ d := by
  intro e
  rw [e, hd] at h
  exact Option.noConfusion h

/-- A hex digit is not `int()` whitespace. -/
theorem hexVal?_not_ws (c : Char) (v : Nat) (h : hexVal? c = some v) : isPyWs c = false := by
  have r := hexVal?_ranges c v h
  simp only [isPyWs, decide_eq_false_iff_not]
  omega

/-- `int(s, 16)` on a two-hex-digit string is the value of the two digits. -/
theorem pyIntHex_pair (d1 d2 : Char) (v1 v2 : Nat)
    (h1 : hexVal? d1 = some v1) (h2 : hexVal? d2 = some v2) :
    pyIntHex [d1, d2] = some ((16 * v1 + v2 : Nat) : Int) := by
  have w1 := hexVal?_not_ws d1 v1 h1
  have w2 := hexVal?_not_ws d2 v2 h2
  have np : ¬(d1 = '+') := hexVal?_ne d1 v1 h1 '+' (by decide)
  have nm : ¬(d1 = '-') := hexVal?_ne d1 v1 h1 '-' (by decide)
  have nx : ¬(d2 = 'x') := hexVal?_ne d2 v2 h2 'x' (by decide)
  have nXu : ¬(d2 = 'X') := hexVal?_ne d2 v2 h2 'X' (by decide)
  have nu : ¬(d2 = '_') := hexVal?_ne d2 v2 h2 '_' (by decide)
  have hstrip : stripWs [d1, d2] = [d1, d2] := by
    simp [stripWs, List.dropWhile, w1, w2]
  have hpref : ¬(d1 = '0' ∧ (d2 = 'x' ∨ d2 = 'X')) := by
    rintro ⟨-, hx | hX⟩
    · exact nx hx
    · exact nXu hX
  simp only [pyIntHex, hstrip, if_neg np, if_neg nm, pyHexMag, if_neg hpref,
    hexFirst, h1, hexDigitsRest, if_neg nu, h2]
  rfl

/-- C5: for a sentence `body*XY\r\n` whose body contains no `*` and whose
checksum field consists of two hex digits, construction succeeds exactly when
the XOR of the character codes of the body equals the numeric value of the
two digits; `hexVal?` maps upper- and lower-case letters to the same value,
so the comparison is case-insensitive numeric equality, not string equality. -/
theorem nmea_checksum_validation (body : List Char) (d1 d2 : Char) (v1 v2 : Nat)
    (hb : body.count '*' = 0)
    (h1 : hexVal? d1 = some v1) (h2 : hexVal? d2 = some v2) :
    exIsOk (NMEA_message (body ++ '*' :: [d1, d2, '\r', '\n'])) = true ↔
      nmeaXor body = 16 * v1 + v2 := by
  have hpre : '*' ∉ body := List.count_eq_zero.mp hb
  have hd1 : ¬(d1 = '*') := hexVal?_ne d1 v1 h1 '*' (by decide)
  have hd2 : ¬(d2 = '*') := hexVal?_ne d2 v2 h2 '*' (by decide)
  have hpost : '*' ∉ [d1, d2, '\r', '\n'] := by
    intro hm
    simp only [List.mem_cons, List.not_mem_nil, or_false] at hm
    rcases hm with he | he | he | he
    · exact hd1 he.symm
    · exact hd2 he.symm
    · exact absurd he (by decide)
    · exact absurd he (by decide)
  have hsplit := splitStar_append body [d1, d2, '\r', '\n'] hpre hpost
  have htake : [d1, d2, '\r', '\n'].take ([d1, d2, '\r', '\n'].length - 2) = [d1, d2] := rfl
  simp only [NMEA_message, hsplit, htake, pyIntHex_pair d1 d2 v1 v2 h1 h2]
  constructor
  · intro hok
    by_contra hne
    have hne2 : ¬((nmeaXor body : Int) = ((16 * v1 + v2 : Nat) : Int)) := by
      intro hi
      exact hne (by exact_mod_cast hi)
    rw [if_neg hne2] at hok
    simp [exIsOk] at hok
  · intro he
    rw [if_pos (by exact_mod_cast he)]
    rfl

/-- Witness for C5: the sentence `G*47\r\n` (body XOR = 0x47) validates. -/
theorem nmea_checksum_validation_witness :
    exIsOk (NMEA_message (['G'] ++ '*' :: ['4', '7', '\r', '\n'])) = true :=
  (nmea_checksum_validation ['G'] '4' '7' 4 7 (by decide) (by decide) (by decide)).mpr
    (by decide)

/-- C10: `NMEA_message` fails with the tuple-unpacking `ValueError` whenever
the input does not contain exactly one `*`. -/
theorem nmea_requires_single_star (data : List Char) (h : data.count '*' ≠ 1) :
    NMEA_message data = Except.error NMEAErr.unpack := by
  have hn := (splitStar_none_iff data).mpr h
  simp only [NMEA_message, hn]

/-- Witness for C10 at a star-free input. -/
theorem nmea_requires_single_star_witness :
    NMEA_message ['G', 'A'] = Except.error NMEAErr.unpack :=
  nmea_requires_single_star ['G', 'A'] (by decide)

/-- C4 counterexample: `J*4a\r\n` is a well-formed NMEA frame (XOR of `J` is
0x4A); changing the single checksum byte `a` to `A` still yields a valid
message, because the checksum field is compared numerically after hex
parsing, so the claim's "never a valid result" fails. -/
theorem nmea_case_flip_accepted :
    exIsOk (NMEA_message ['J', '*', '4', 'a', '\r', '\n']) = true ∧
    exIsOk (NMEA_message ['J', '*', '4', 'A', '\r', '\n']) = true := by
  exact ⟨by decide, by decide⟩

/-- C4 (amended): corrupting one of the two trailing checksum bytes of a
well-formed synced UBX frame always produces the checksum-mismatch
`ValueError`; an NMEA sentence is accepted only when its two-character
checksum field hex-parses to the XOR of the body, so any corruption of a
checksum byte that changes the parsed value (everything except
value-preserving rewritings such as a hex-letter case flip) is rejected,
and decoding never ends in an uncontrolled crash. -/
theorem corrupt_checksum_detected :
    (∀ (pre : List Nat) (c1 c2 d1 d2 : Nat),
      exIsOk (UBX_message ([0xB5, 0x62] ++ (pre ++ [c1, c2]))) = true →
      (d1 = c1 ∧ d2 ≠ c2) ∨ (d1 ≠ c1 ∧ d2 = c2) →
      isCkErr (UBX_message ([0xB5, 0x62] ++ (pre ++ [d1, d2]))) = true) ∧
    (∀ (body : List Char) (f1 f2 : Char),
      body.count '*' = 0 →
      exIsOk (NMEA_message (body ++ '*' :: [f1, f2, '\r', '\n'])) = true →
      pyIntHex [f1, f2] = some ((nmeaXor body : Nat) : Int)) := by
  constructor
  · intro pre c1 c2 d1 d2 hok hch
    have hck := UBX_ok_ck pre c1 c2 hok
    have hne : fletcher_checksum ([0xB5, 0x62] ++ pre) ≠ [d1, d2] := by
      rw [hck]
      intro he
      injection he with e1 erest
      injection erest with e2 _
      rcases hch with ⟨_, ne2⟩ | ⟨ne1, _⟩
      · exact ne2 e2.symm
      · exact ne1 e1.symm
    rw [UBX_bad_ck pre d1 d2 hne]
    rfl
  · intro body f1 f2 hb hok
    by_cases hmem : '*' ∈ [f1, f2, '\r', '\n']
    · exfalso
      have hcount : (body ++ '*' :: [f1, f2, '\r', '\n']).count '*' ≠ 1 := by
        rw [List.count_append, List.count_cons_self]
        have hpos : 0 < [f1, f2, '\r', '\n'].count '*' := List.count_pos_iff.mpr hmem
        omega
      have hnone := (splitStar_none_iff _).mpr hcount
      simp only [NMEA_message, hnone] at hok
      simp [exIsOk] at hok
    · have hsplit := splitStar_append body [f1, f2, '\r', '\n'] (List.count_eq_zero.mp hb) hmem
      have htake : [f1, f2, '\r', '\n'].take ([f1, f2, '\r', '\n'].length - 2) = [f1, f2] := rfl
      cases hpi : pyIntHex [f1, f2] with
      | none =>
        simp only [NMEA_message, hsplit, htake, hpi] at hok
        simp [exIsOk] at hok
      | some v =>
        simp only [NMEA_message, hsplit, htake, hpi] at hok
        by_cases he : (nmeaXor body : Int) = v
        · exact congrArg some he.symm
        · rw [if_neg he] at hok
          simp [exIsOk] at hok

/-- Witness for the amended C4: corrupting the second checksum byte of the
valid frame `B5 62 06 04 00 00 0A 24` is caught, and the accepted sentence
`G*47\r\n` has a checksum field parsing to the body XOR 0x47. -/
theorem corrupt_checksum_detected_witness :
    isCkErr (UBX_message ([0xB5, 0x62] ++ ([0x06, 0x04, 0x00, 0x00] ++ [10, 37]))) = true ∧
    pyIntHex ['4', '7'] = some ((71 : Nat) : Int) := by
  constructor
  · exact corrupt_checksum_detected.1 [0x06, 0x04, 0x00, 0x00] 10 36 10 37 (by decide)
      (Or.inl ⟨rfl, by decide⟩)
  · exact corrupt_checksum_detected.2 ['G'] '4' '7' (by decide) (by decide)

/-- C7: from the idle state, the parser enters NMEA collection exactly when
the consumed byte is `G` (0x47) and the previous byte was `$` (0x24), and in
that case the frame buffer is seeded with the single byte `G`; any other
leading talker character never starts a sentence. -/
theorem idle_nmea_start (st : ParserSt) (b : Nat) (hidle : st.current_parse = none) :
    (((parse_step st b).1.current_parse = some PMode.NMEA) ↔
      (b = 0x47 ∧ st.last_byte = some 0x24)) ∧
    ((b = 0x47 ∧ st.last_byte = some 0x24) → (parse_step st b).1.parse_data = [0x47]) := by
  by_cases h1 : b = 0x62 ∧ st.last_byte = some 0xB5
  · have hb : ¬(b = 0x47) := by
      rcases h1 with ⟨e, -⟩
      subst e
      decide
    constructor
    · simp only [parse_step, hidle, if_pos h1]
      constructor
      · intro hc
        exact absurd hc (by simp)
      · rintro ⟨e, -⟩
        exact absurd e hb
    · rintro ⟨e, -⟩
      exact absurd e hb
  · by_cases h2 : b = 0x47 ∧ st.last_byte = some 0x24
    · constructor
      · simp only [parse_step, hidle, if_neg h1, if_pos h2]
        simp [h2]
      · intro _
        simp only [parse_step, hidle, if_neg h1, if_pos h2]
    · constructor
      · simp only [parse_step, hidle, if_neg h1, if_neg h2]
        exact iff_of_false (by simp [hidle]) h2
      · intro hc
        exact absurd hc h2

/-- Witness for C7: after `$`, the byte `G` enters NMEA collection with the
buffer seeded. -/
theorem idle_nmea_start_witness :
    (parse_step { current_parse := none, parse_data := [], last_byte := some 0x24 }
        0x47).1.current_parse = some PMode.NMEA ∧
    (parse_step { current_parse := none, parse_data := [], last_byte := some 0x24 }
        0x47).1.parse_data = [0x47] :=
  ⟨(idle_nmea_start _ 0x47 rfl).1.mpr ⟨rfl, rfl⟩, (idle_nmea_start _ 0x47 rfl).2 ⟨rfl, rfl⟩⟩

/-- C9: whenever feeding a byte completes a frame — the UBX buffer reaches
the declared length plus 6, or a line feed arrives during NMEA collection —
the parser returns to the idle state with an empty frame buffer and a result
is returned, whether or not decoding that frame succeeded. -/
theorem frame_completion_resets (st : ParserSt) (b : Nat)
    (h : (st.current_parse = some PMode.UBX ∧
            ((st.parse_data ++ [b]).length ≥ 4 ∧
              (st.parse_data ++ [b]).length =
                leBytes [(st.parse_data ++ [b]).getD 2 0, (st.parse_data ++ [b]).getD 3 0] + 6)) ∨
         (st.current_parse = some PMode.NMEA ∧ b = 0x0A)) :
    (parse_step st b).1.current_parse = none ∧ (parse_step st b).1.parse_data = [] ∧
      ((parse_step st b).2).isSome = true := by
  rcases h with ⟨hc, hlen⟩ | ⟨hc, hb⟩
  · simp only [parse_step, hc]
    rw [if_pos hlen]
    exact ⟨rfl, rfl, rfl⟩
  · simp only [parse_step, hc]
    rw [if_pos hb]
    exact ⟨rfl, rfl, rfl⟩

/-- Witness for C9: a six-byte zero-length UBX frame completes (here with a
wrong checksum, so the decode fails) and the state is still reset. -/
theorem frame_completion_resets_witness :
    (parse_step (ParserSt.mk (some PMode.UBX) [0x06, 0x04, 0x00, 0x00, 0xFF] (some 0x62))
        0xFE).1.current_parse = none ∧
    (parse_step (ParserSt.mk (some PMode.UBX) [0x06, 0x04, 0x00, 0x00, 0xFF] (some 0x62))
        0xFE).1.parse_data = [] ∧
    ((parse_step (ParserSt.mk (some PMode.UBX) [0x06, 0x04, 0x00, 0x00, 0xFF] (some 0x62))
        0xFE).2).isSome = true :=
  frame_completion_resets _ 0xFE (Or.inl ⟨rfl, by decide, by decide⟩)
